import Mathlib

/-!
Verification of the room/entity configuration model of the
`glassmorphism-dashboard` Home Assistant card.

The repository ships the card twice: an unbundled source file (version
1.0.2, called `part_000` below) and the distributed build
`dist/glassmorphism-dashboard.js` (version 1.0.5).  The two agree on every
function embedded here except `getDefaultRooms` (three default rooms in
1.0.2, five in 1.0.5); both variants are embedded.

Modelling conventions:
  * JavaScript strings are modelled by Lean `String` (sequences of Unicode
    scalar values; lone surrogates are outside the model).
  * Numbers that the card manipulates (climate temperatures) are modelled
    by `ℚ`; the card only ever adds or subtracts the constant `0.5`.
  * A room object's category properties may be absent in JavaScript (the
    code guards with `if (!room[category])`), so a bucket is modelled as
    `Option (List String)`: `none` is an absent property.
  * `localStorage` is a string-keyed string store, modelled as
    `String → Option String`; `getItem` returning `null` is `none`.
  * `JSON.stringify`/`JSON.parse` are modelled by an executable printer
    and parser for the exact serialized shape of a room list (array of
    objects whose values are strings or arrays of strings), including
    JSON string escaping.  `JSON.parse` succeeding with a value that is
    not a room-list document is outside the model.
  * The card's `try`/`catch` blocks log and swallow all storage errors, so
    `saveRoomConfig`/`loadRoomConfig` are total functions; a possible
    `setItem` failure (quota) is an explicit `writeOk : Bool` parameter.
-/

/-- The five fixed entity categories of a room. -/
inductive Cat where
  | lights
  | climate
  | media
  | sensors
  | switches
deriving DecidableEq, Repr

/-- A room of the dashboard, as stored in the persisted configuration:
`{ id, name, icon?, lights: [...], climate: [...], media: [...],
sensors: [...], switches: [...] }`.  The 1.0.2 source always writes an
`icon` property, the 1.0.5 dist build never does, hence `Option String`.
A bucket is `none` when the property is absent from the object. -/
structure Room where
  id : String
  name : String
  icon : Option String
  lights : Option (List String)
  climate : Option (List String)
  media : Option (List String)
  sensors : Option (List String)
  switches : Option (List String)
deriving DecidableEq, Repr

/-- Read a category bucket of a room (`room[category]`). -/
def Room.getBucket (r : Room) : Cat → Option (List String)
  | .lights => r.lights
  | .climate => r.climate
  | .media => r.media
  | .sensors => r.sensors
  | .switches => r.switches

/-- Write a category bucket of a room (`room[category] = b`). -/
def Room.setBucket (r : Room) (c : Cat) (b : Option (List String)) : Room :=
  match c with
  | .lights => { r with lights := b }
  | .climate => { r with climate := b }
  | .media => { r with media := b }
  | .sensors => { r with sensors := b }
  | .switches => { r with switches := b }

/-- The mutable configuration state of the card: `this._rooms` and
`this._activeRoom`. -/
structure ConfigState where
  rooms : List Room
  activeRoom : Nat
deriving DecidableEq, Repr

/-- Effect of `addEntityToRoom` (part_000 lines 204-213) on one bucket:
`if (!room[category]) room[category] = [];` coerces an absent bucket to
`[]`, then `entityId` is pushed only if `!room[category].includes(entityId)`. -/
def bucketAdd (b : Option (List String)) (entityId : String) : Option (List String) :=
  let l := b.getD []
  if entityId ∈ l then some l else some (l ++ [entityId])

/-- Effect of `removeEntityFromRoom` (part_000 lines 215-222) on one bucket:
`if (room[category])` skips an absent bucket, otherwise
`room[category] = room[category].filter(id => id !== entityId)`. -/
def bucketRemove (b : Option (List String)) (entityId : String) : Option (List String) :=
  match b with
  | none => none
  | some l => some (l.filter (fun x => x ≠ entityId))

/-- One `addEntity`/`removeEntity` call targeted at a single bucket. -/
inductive BucketOp where
  | add (entityId : String)
  | remove (entityId : String)

/-- Apply one bucket operation. -/
def applyBucketOp (b : Option (List String)) : BucketOp → Option (List String)
  | .add e => bucketAdd b e
  | .remove e => bucketRemove b e

/-- A bucket holds no duplicate device identifiers (an absent bucket is
duplicate-free). -/
def bucketNodup (b : Option (List String)) : Prop := (b.getD []).Nodup

/-- Number of occurrences of `entityId` in a bucket. -/
def bucketCount (b : Option (List String)) (entityId : String) : Nat :=
  (b.getD []).count entityId

/-- `addEntityToRoom(entityId, category)` of part_000 lines 204-213, acting
on the room at `this._activeRoom`.  An out-of-range active index makes the
JavaScript throw on a property access; the configuration is unchanged in
that case in this model (the card's own flows keep the index in range). -/
def addEntityToRoom (s : ConfigState) (entityId : String) (category : Cat) : ConfigState :=
  match s.rooms.get? s.activeRoom with
  | none => s
  | some room =>
    { s with rooms := (s.rooms.set s.activeRoom
        (room.setBucket category (bucketAdd (room.getBucket category) entityId))) }

/-- `removeEntityFromRoom(entityId, category)` of part_000 lines 215-222. -/
def removeEntityFromRoom (s : ConfigState) (entityId : String) (category : Cat) : ConfigState :=
  match s.rooms.get? s.activeRoom with
  | none => s
  | some room =>
    { s with rooms := (s.rooms.set s.activeRoom
        (room.setBucket category (bucketRemove (room.getBucket category) entityId))) }

/-- JavaScript `\s` character class (regex whitespace), the separator class
of `addRoom`'s `.replace(/\s+/g, '_')`. -/
def isJsWhitespace (c : Char) : Bool :=
  c = ' ' || c = '\t' || c = '\n' || c.val = 11 || c.val = 12 || c = '\r' ||
  c.val = 0xa0 || c.val = 0x1680 || (0x2000 ≤ c.val && c.val ≤ 0x200a) ||
  c.val = 0x2028 || c.val = 0x2029 || c.val = 0x202f || c.val = 0x205f ||
  c.val = 0x3000 || c.val = 0xfeff

/-- `.replace(/\s+/g, '_')`: every maximal run of whitespace becomes one
underscore.  `prevWs` records whether the previous character belonged to a
run already replaced. -/
def collapseWsAux (prevWs : Bool) : List Char → List Char
  | [] => []
  | c :: rest =>
    if isJsWhitespace c then
      if prevWs then collapseWsAux true rest else '_' :: collapseWsAux true rest
    else c :: collapseWsAux false rest

/-- Characters kept by `.replace(/[^a-z0-9_]/g, '')`. -/
def isSlugChar (c : Char) : Bool :=
  ('a' ≤ c && c ≤ 'z') || ('0' ≤ c && c ≤ '9') || c = '_'

/-- The room-identifier derivation of `addRoom` (part_000 line 225):
`name.toLowerCase().replace(/\s+/g, '_').replace(/[^a-z0-9_]/g, '')`.
`toLowerCase` is modelled on the ASCII range (`Char.toLower`); the slug
alphabet `[a-z0-9_]` is ASCII, and non-ASCII characters are removed by the
final step under either lowercasing. -/
def slugify (name : String) : String :=
  ⟨(collapseWsAux false (name.data.map Char.toLower)).filter isSlugChar⟩

/-- The room object pushed by `addRoom` (part_000 lines 226-235). -/
def newRoom (id name : String) : Room :=
  { id := id, name := name, icon := some "mdi:home",
    lights := some [], climate := some [], media := some [],
    sensors := some [], switches := some [] }

/-- `addRoom(name)` of part_000 lines 224-239: push the new room, save,
then make it active (`this._activeRoom = this._rooms.length - 1`). -/
def addRoom (s : ConfigState) (name : String) : ConfigState :=
  let rooms := s.rooms ++ [newRoom (slugify name) name]
  { rooms := rooms, activeRoom := rooms.length - 1 }

/-- `removeRoom(index)` of part_000 lines 241-250: refuse unless more than
one room remains; `splice(index, 1)`; clamp `this._activeRoom` to the new
last index when it points past the end. -/
def removeRoom (s : ConfigState) (index : Nat) : ConfigState :=
  if 1 < s.rooms.length then
    let rooms := s.rooms.eraseIdx index
    { rooms := rooms,
      activeRoom := if rooms.length ≤ s.activeRoom then rooms.length - 1 else s.activeRoom }
  else s

/-- A default room of the 1.0.2 source: all five buckets present and empty. -/
def defaultRoom102 (id name icon : String) : Room :=
  { id := id, name := name, icon := some icon,
    lights := some [], climate := some [], media := some [],
    sensors := some [], switches := some [] }

/-- `getDefaultRooms()` of part_000 lines 103-136 (version 1.0.2): three
rooms, each with empty buckets. -/
def getDefaultRooms : List Room :=
  [defaultRoom102 "woonkamer" "Woonkamer" "mdi:sofa",
   defaultRoom102 "slaapkamer" "Slaapkamer" "mdi:bed",
   defaultRoom102 "keuken" "Keuken" "mdi:silverware-fork-knife"]

/-- A default room of the 1.0.5 dist build: no `icon` property. -/
def defaultRoomDist (id name : String) : Room :=
  { id := id, name := name, icon := none,
    lights := some [], climate := some [], media := some [],
    sensors := some [], switches := some [] }

/-- `getDefaultRooms()` of `dist/glassmorphism-dashboard.js` lines 87-135
(version 1.0.5): five rooms, each with empty buckets. -/
def getDefaultRoomsDist : List Room :=
  [defaultRoomDist "woonkamer" "Woonkamer",
   defaultRoomDist "slaapkamer" "Slaapkamer",
   defaultRoomDist "keuken" "Keuken",
   defaultRoomDist "kantoor" "Kantoor",
   defaultRoomDist "zolder" "Zolder"]

/-- All five category buckets of a room are present and empty. -/
def bucketsEmpty (r : Room) : Prop :=
  r.lights = some [] ∧ r.climate = some [] ∧ r.media = some [] ∧
  r.sensors = some [] ∧ r.switches = some []

instance : DecidablePred bucketsEmpty := fun r => by
  unfold bucketsEmpty
  infer_instance

/-! ### Bucket invariants (claims C1 and C10) -/

/-- One `addEntity`/`removeEntity` step keeps a bucket duplicate-free. -/
theorem bucketNodup_applyBucketOp (b : Option (List String)) (op : BucketOp)
    (h : bucketNodup b) : bucketNodup (applyBucketOp b op) := by
  cases op with
  | add e =>
    simp only [applyBucketOp, bucketAdd, bucketNodup] at *
    by_cases hm : e ∈ b.getD []
    · simpa [hm] using h
    · simp [hm, List.nodup_append, h]
  | remove e =>
    cases b with
    | none => simp [applyBucketOp, bucketRemove, bucketNodup]
    | some l =>
      simp only [applyBucketOp, bucketRemove, bucketNodup, Option.getD] at *
      exact h.filter _

/-- `bucketAdd` always yields a present bucket, in conditional form. -/
theorem bucketAdd_eq_some (b : Option (List String)) (e : String) :
    bucketAdd b e = some (if e ∈ b.getD [] then b.getD [] else b.getD [] ++ [e]) := by
  simp [bucketAdd, apply_ite]

/-- Claim C1: starting from a duplicate-free bucket, every sequence of
`addEntity`/`removeEntity` operations leaves the bucket duplicate-free, and
adding the same device identifier twice leaves exactly one occurrence. -/
theorem bucket_nodup_invariant (b : Option (List String)) (h : bucketNodup b) :
    (∀ ops : List BucketOp, bucketNodup (ops.foldl applyBucketOp b)) ∧
    (∀ entityId : String,
      bucketCount (applyBucketOp (applyBucketOp b (.add entityId)) (.add entityId)) entityId
        = 1) := by
  constructor
  · intro ops
    induction ops generalizing b with
    | nil => exact h
    | cons op ops ih => exact ih _ (bucketNodup_applyBucketOp b op h)
  · intro e
    have h1 : bucketNodup (applyBucketOp b (.add e)) := bucketNodup_applyBucketOp b (.add e) h
    have hx : applyBucketOp b (.add e)
        = some (if e ∈ b.getD [] then b.getD [] else b.getD [] ++ [e]) := bucketAdd_eq_some b e
    set l1 := if e ∈ b.getD [] then b.getD [] else b.getD [] ++ [e] with hl1
    have hmem : e ∈ l1 := by
      rw [hl1]
      by_cases hm : e ∈ b.getD [] <;> simp [hm]
    have h2 : applyBucketOp (applyBucketOp b (.add e)) (.add e) = some l1 := by
      rw [show applyBucketOp (applyBucketOp b (.add e)) (.add e)
            = bucketAdd (applyBucketOp b (.add e)) e from rfl, hx]
      simp [bucketAdd, Option.getD_some, hmem]
    have h1n : l1.Nodup := by
      have hh := h1
      rw [bucketNodup, hx, Option.getD_some] at hh
      exact hh
    rw [bucketCount, h2, Option.getD_some]
    exact List.count_eq_one_of_mem h1n hmem

/-- Witness for C1: two adds of the same identifier to an empty bucket leave
exactly one occurrence. -/
theorem bucket_nodup_invariant_witness :
    bucketNodup (some ([] : List String)) ∧
    bucketCount
      (applyBucketOp (applyBucketOp (some []) (.add "light.kitchen")) (.add "light.kitchen"))
      "light.kitchen" = 1 :=
  ⟨by simp [bucketNodup],
   (bucket_nodup_invariant (some []) (by simp [bucketNodup])).2 "light.kitchen"⟩

/-- Claim C10: `addEntity` appends a new identifier at the end of the bucket;
`removeEntity` keeps the surviving identifiers in their previous relative
order (the result is a sublist) and keeps exactly the members different from
the removed identifier. -/
theorem bucket_order_spec (b : Option (List String)) (entityId : String) :
    (entityId ∉ b.getD [] → bucketAdd b entityId = some (b.getD [] ++ [entityId])) ∧
    List.Sublist ((bucketRemove b entityId).getD []) (b.getD []) ∧
    (∀ x, x ∈ (bucketRemove b entityId).getD [] ↔ x ∈ b.getD [] ∧ x ≠ entityId) := by
  refine ⟨fun hm => by simp [bucketAdd, hm], ?_, ?_⟩
  · cases b with
    | none => simp [bucketRemove]
    | some l => simp [bucketRemove]
  · intro x
    cases b with
    | none => simp [bucketRemove]
    | some l => simp [bucketRemove, List.mem_filter]

/-- Witness for C10: adding a fresh identifier appends it at the end. -/
theorem bucket_order_spec_witness :
    ("light.b" ∉ (some ["light.a"] : Option (List String)).getD []) ∧
    bucketAdd (some ["light.a"]) "light.b" = some (["light.a"] ++ ["light.b"]) :=
  ⟨by decide, (bucket_order_spec (some ["light.a"]) "light.b").1 (by decide)⟩

/-! ### Room management (claims C4, C6, C9) -/

/-- Claim C4: `removeRoom` refuses on a single-room configuration; otherwise
it deletes the room at `index` and clamps the active-room index to the new
last index when it points past the end; in particular removing the active
last room makes the new last room active. -/
theorem removeRoom_spec (s : ConfigState) (i : Nat) :
    (s.rooms.length = 1 → removeRoom s i = s) ∧
    (1 < s.rooms.length → i < s.rooms.length →
      (removeRoom s i).rooms.length = s.rooms.length - 1 ∧
      (removeRoom s i).rooms = s.rooms.take i ++ s.rooms.drop (i + 1) ∧
      (removeRoom s i).activeRoom =
        (if s.rooms.length - 1 ≤ s.activeRoom then s.rooms.length - 2 else s.activeRoom)) ∧
    (1 < s.rooms.length → i = s.activeRoom → i = s.rooms.length - 1 →
      (removeRoom s i).activeRoom = (removeRoom s i).rooms.length - 1) := by
  refine ⟨fun h1 => by simp [removeRoom, h1], fun h1 h2 => ?_, fun h1 hia hil => ?_⟩
  · have hlen : (s.rooms.eraseIdx i).length = s.rooms.length - 1 := by
      rw [List.length_eraseIdx]
      simp [h2]
    have hsub : s.rooms.length - 1 - 1 = s.rooms.length - 2 := by omega
    refine ⟨?_, ?_, ?_⟩
    · simp [removeRoom, h1, hlen]
    · simp [removeRoom, h1, List.eraseIdx_eq_take_drop_succ]
    · simp only [removeRoom, if_pos h1, hlen, hsub]
  · have h2 : i < s.rooms.length := by omega
    have hlen : (s.rooms.eraseIdx i).length = s.rooms.length - 1 := by
      rw [List.length_eraseIdx]
      simp [h2]
    have hcl : s.rooms.length - 1 ≤ s.activeRoom := by omega
    simp [removeRoom, h1, hlen, hcl]

/-- Witness for C4: removing the only room is refused, and removing the
active last room of the three-room default configuration makes the new last
room active. -/
theorem removeRoom_spec_witness :
    removeRoom ⟨[newRoom "a" "A"], 0⟩ 0 = ⟨[newRoom "a" "A"], 0⟩ ∧
    (removeRoom ⟨getDefaultRooms, 2⟩ 2).activeRoom
      = (removeRoom ⟨getDefaultRooms, 2⟩ 2).rooms.length - 1 :=
  ⟨(removeRoom_spec ⟨[newRoom "a" "A"], 0⟩ 0).1 (by decide),
   (removeRoom_spec ⟨getDefaultRooms, 2⟩ 2).2.2 (by decide) rfl (by decide)⟩

/-- Claim C6: `addRoom(name)` appends one room whose identifier is the slug
of `name` (lowercased, whitespace runs collapsed to underscores, characters
outside `[a-z0-9_]` stripped), whose display name is `name` and whose five
buckets are empty, and makes the new room active; the slug of
`"Garden Room!"` is `"garden_room"`. -/
theorem addRoom_spec (s : ConfigState) (name : String) :
    (addRoom s name).rooms = s.rooms ++ [newRoom (slugify name) name] ∧
    (addRoom s name).activeRoom = s.rooms.length ∧
    bucketsEmpty (newRoom (slugify name) name) ∧
    (newRoom (slugify name) name).id = slugify name ∧
    (newRoom (slugify name) name).name = name ∧
    slugify "Garden Room!" = "garden_room" := by
  refine ⟨rfl, ?_, ?_, rfl, rfl, ?_⟩
  · simp [addRoom]
  · simp [bucketsEmpty, newRoom]
  · decide

/-- Counterexample to C9 as stated: the 1.0.2 source file synthesizes three
default rooms, not five. -/
theorem getDefaultRooms_length_counterexample :
    getDefaultRooms.length = 3 ∧ getDefaultRooms.length ≠ 5 := by decide

/-- Claim C9 (amended): the dist build's default configuration has exactly
five rooms, the 1.0.2 source's has exactly three, and in both every category
bucket of every default room is empty. -/
theorem defaultRooms_spec :
    getDefaultRoomsDist.length = 5 ∧ (∀ r ∈ getDefaultRoomsDist, bucketsEmpty r) ∧
    getDefaultRooms.length = 3 ∧ (∀ r ∈ getDefaultRooms, bucketsEmpty r) := by decide

/-! ### JSON serialization of the room list

`saveRoomConfig` stores `JSON.stringify(this._rooms)` and `loadRoomConfig`
reads it back with `JSON.parse`.  The printer below produces exactly the
text `JSON.stringify` emits for a room list (no whitespace, object keys in
insertion order, strings escaped); the parser is `JSON.parse` specialized
to such room-list documents (strings, arrays of strings, objects with
string keys), failing on anything else. -/

/-- Lowercase hexadecimal digit, as emitted in `\u00XX` escapes. -/
def toHexDigitChar (n : Nat) : Char :=
  if n ≤ 9 then Char.ofNat (n + '0'.toNat) else Char.ofNat (n - 10 + 'a'.toNat)

/-- `JSON.stringify`'s escaping of one string character: `\"`, `\\`, the
short control escapes `\b \f \n \r \t`, `\u00XX` for the remaining control
characters, all else verbatim. -/
def escapeChar (c : Char) : List Char :=
  if c = '"' then ['\\', '"']
  else if c = '\\' then ['\\', '\\']
  else if c = Char.ofNat 8 then ['\\', 'b']
  else if c = Char.ofNat 12 then ['\\', 'f']
  else if c = '\n' then ['\\', 'n']
  else if c = '\r' then ['\\', 'r']
  else if c = '\t' then ['\\', 't']
  else if c.toNat < 0x20 then
    ['\\', 'u', '0', '0', toHexDigitChar (c.toNat / 16), toHexDigitChar (c.toNat % 16)]
  else [c]

/-- Escape every character of a string body. -/
def escapeChars : List Char → List Char
  | [] => []
  | c :: rest => escapeChar c ++ escapeChars rest

/-- A JSON string literal: quote, escaped body, quote. -/
def printJString (s : String) : List Char :=
  '"' :: (escapeChars s.data ++ ['"'])

/-- Comma-separated continuation of a string array. -/
def printStrSep : List String → List Char
  | [] => []
  | s :: rest => ',' :: (printJString s ++ printStrSep rest)

/-- The elements of a string array, comma-separated. -/
def printStrItems : List String → List Char
  | [] => []
  | s :: rest => printJString s ++ printStrSep rest

/-- A JSON array of strings (a serialized bucket). -/
def printStrList (l : List String) : List Char :=
  '[' :: (printStrItems l ++ [']'])

/-- A serialized room-object property value: a string (`id`, `name`,
`icon`) or an array of strings (a bucket). -/
inductive FieldVal where
  | str (s : String)
  | strList (l : List String)
deriving DecidableEq, Repr

/-- Print one property value. -/
def printFieldVal : FieldVal → List Char
  | .str s => printJString s
  | .strList l => printStrList l

/-- Print one `"key":value` pair. -/
def printField (kv : String × FieldVal) : List Char :=
  printJString kv.1 ++ ':' :: printFieldVal kv.2

/-- Comma-separated continuation of an object's properties. -/
def printFieldSep : List (String × FieldVal) → List Char
  | [] => []
  | kv :: rest => ',' :: (printField kv ++ printFieldSep rest)

/-- The properties of an object, comma-separated. -/
def printFieldItems : List (String × FieldVal) → List Char
  | [] => []
  | kv :: rest => printField kv ++ printFieldSep rest

/-- The property list `JSON.stringify` sees on a room object, in insertion
order: `id`, `name`, then `icon` and each bucket when present (an absent
property is simply not serialized). -/
def roomFields (r : Room) : List (String × FieldVal) :=
  ("id", .str r.id) :: ("name", .str r.name) ::
    ((match r.icon with | some i => [("icon", FieldVal.str i)] | none => []) ++
     (match r.lights with | some l => [("lights", FieldVal.strList l)] | none => []) ++
     (match r.climate with | some l => [("climate", FieldVal.strList l)] | none => []) ++
     (match r.media with | some l => [("media", FieldVal.strList l)] | none => []) ++
     (match r.sensors with | some l => [("sensors", FieldVal.strList l)] | none => []) ++
     (match r.switches with | some l => [("switches", FieldVal.strList l)] | none => []))

/-- A serialized room object. -/
def printRoom (r : Room) : List Char :=
  '\x7b' :: (printFieldItems (roomFields r) ++ ['\x7d'])

/-- Comma-separated continuation of the room array. -/
def printRoomSep : List Room → List Char
  | [] => []
  | r :: rest => ',' :: (printRoom r ++ printRoomSep rest)

/-- The elements of the room array, comma-separated. -/
def printRoomItems : List Room → List Char
  | [] => []
  | r :: rest => printRoom r ++ printRoomSep rest

/-- The serialized room array. -/
def printRooms (rooms : List Room) : List Char :=
  '[' :: (printRoomItems rooms ++ [']'])

/-- `JSON.stringify(this._rooms)`. -/
def stringifyRooms (rooms : List Room) : String :=
  ⟨printRooms rooms⟩

/-- Value of one hexadecimal digit character. -/
def hexDigitVal (c : Char) : Option Nat :=
  if 'a' ≤ c && c ≤ 'f' then some (10 + (c.toNat - 'a'.toNat))
  else if 'A' ≤ c && c ≤ 'F' then some (10 + (c.toNat - 'A'.toNat))
  else if '0' ≤ c && c ≤ '9' then some (c.toNat - '0'.toNat)
  else none

/-- The character denoted by a short JSON escape `\X`. -/
def decodeSimpleEscape : Char → Option Char
  | '"' => some '"'
  | '\\' => some '\\'
  | '/' => some '/'
  | 'b' => some (Char.ofNat 8)
  | 'f' => some (Char.ofNat 12)
  | 'n' => some '\n'
  | 'r' => some '\r'
  | 't' => some '\t'
  | _ => none

/-- Prepend a decoded character to a string-body parse result. -/
def consFst (c : Char) : Option (List Char × List Char) → Option (List Char × List Char)
  | some (s, r) => some (c :: s, r)
  | none => none

/-- Decode a `\uXXXX` escape from its four hex digits and continue with `k`.
Escapes denoting surrogate halves are rejected (Lean characters are Unicode
scalar values). -/
def parseU (h1 h2 h3 h4 : Char) (k : Option (List Char × List Char)) :
    Option (List Char × List Char) :=
  match hexDigitVal h1, hexDigitVal h2, hexDigitVal h3, hexDigitVal h4 with
  | some a, some b, some v, some d =>
    let n := ((a * 16 + b) * 16 + v) * 16 + d
    if n < 0xd800 || 0xdfff < n then consFst (Char.ofNat n) k else none
  | _, _, _, _ => none

/-- Parse a JSON string body after the opening quote, up to and including
the closing quote.  Escapes denoting surrogate halves are rejected (Lean
characters are Unicode scalar values), as are raw control characters
(invalid JSON). -/
def parseStringBody : List Char → Option (List Char × List Char)
  | [] => none
  | c :: rest =>
    if c = '"' then some ([], rest)
    else if c = '\\' then
      match rest with
      | 'u' :: h1 :: h2 :: h3 :: h4 :: rest2 => parseU h1 h2 h3 h4 (parseStringBody rest2)
      | e :: rest2 =>
        match decodeSimpleEscape e with
        | some d => consFst d (parseStringBody rest2)
        | none => none
      | [] => none
    else if c.toNat < 0x20 then none
    else consFst c (parseStringBody rest)

/-- Parse a JSON string literal. -/
def parseJString : List Char → Option (String × List Char)
  | '"' :: rest =>
    match parseStringBody rest with
    | some (s, r) => some (⟨s⟩, r)
    | none => none
  | _ => none

/-- Parse the elements of a nonempty string array, up to and including the
closing bracket.  `fuel` bounds the number of elements. -/
def parseStrItems : Nat → List Char → Option (List String × List Char)
  | 0, _ => none
  | fuel + 1, cs =>
    match parseJString cs with
    | none => none
    | some (s, rest) =>
      match rest with
      | ']' :: r2 => some ([s], r2)
      | ',' :: r2 =>
        match parseStrItems fuel r2 with
        | some (ss, r3) => some (s :: ss, r3)
        | none => none
      | _ => none

/-- Parse a JSON array of strings. -/
def parseStrList (fuel : Nat) : List Char → Option (List String × List Char)
  | '[' :: ']' :: rest => some ([], rest)
  | '[' :: cs => parseStrItems fuel cs
  | _ => none

/-- Parse one property value: a string or an array of strings. -/
def parseFieldVal (fuel : Nat) (cs : List Char) : Option (FieldVal × List Char) :=
  match cs with
  | '"' :: _ =>
    match parseJString cs with
    | some (s, r) => some (.str s, r)
    | none => none
  | '[' :: _ =>
    match parseStrList fuel cs with
    | some (l, r) => some (.strList l, r)
    | none => none
  | _ => none

/-- Parse the properties of a nonempty object, up to and including the
closing brace. -/
def parseFieldItems : Nat → List Char → Option (List (String × FieldVal) × List Char)
  | 0, _ => none
  | fuel + 1, cs =>
    match parseJString cs with
    | none => none
    | some (k, r1) =>
      match r1 with
      | ':' :: r2 =>
        match parseFieldVal fuel r2 with
        | none => none
        | some (v, r3) =>
          match r3 with
          | '\x7d' :: r4 => some ([(k, v)], r4)
          | ',' :: r4 =>
            match parseFieldItems fuel r4 with
            | some (fs, r5) => some ((k, v) :: fs, r5)
            | none => none
          | _ => none
      | _ => none

/-- Parse a JSON object into its property list. -/
def parseObjFields (fuel : Nat) : List Char → Option (List (String × FieldVal) × List Char)
  | '\x7b' :: '\x7d' :: rest => some ([], rest)
  | '\x7b' :: cs => parseFieldItems fuel cs
  | _ => none

/-- Property access on a parsed object: as with `JSON.parse`, a duplicated
key keeps its last value. -/
def lookupField (fs : List (String × FieldVal)) (k : String) : Option FieldVal :=
  fs.foldl (fun acc kv => if kv.1 = k then some kv.2 else acc) none

/-- Read a string-valued property. -/
def strField (fs : List (String × FieldVal)) (k : String) : Option String :=
  match lookupField fs k with
  | some (.str s) => some s
  | _ => none

/-- Read an array-valued property. -/
def listField (fs : List (String × FieldVal)) (k : String) : Option (List String) :=
  match lookupField fs k with
  | some (.strList l) => some l
  | _ => none

/-- View a parsed object as a `Room`.  An object without string `id` and
`name` properties is outside the room data model and fails the parse. -/
def roomOfFields (fs : List (String × FieldVal)) : Option Room :=
  match strField fs "id", strField fs "name" with
  | some id, some name =>
    some { id := id, name := name, icon := strField fs "icon",
           lights := listField fs "lights", climate := listField fs "climate",
           media := listField fs "media", sensors := listField fs "sensors",
           switches := listField fs "switches" }
  | _, _ => none

/-- Parse one room object. -/
def parseRoom (fuel : Nat) (cs : List Char) : Option (Room × List Char) :=
  match parseObjFields fuel cs with
  | some (fs, rest) =>
    match roomOfFields fs with
    | some r => some (r, rest)
    | none => none
  | none => none

/-- Parse the elements of a nonempty room array, up to and including the
closing bracket. -/
def parseRoomItems : Nat → List Char → Option (List Room × List Char)
  | 0, _ => none
  | fuel + 1, cs =>
    match parseRoom fuel cs with
    | none => none
    | some (r, rest) =>
      match rest with
      | ']' :: r2 => some ([r], r2)
      | ',' :: r2 =>
        match parseRoomItems fuel r2 with
        | some (rs, r3) => some (r :: rs, r3)
        | none => none
      | _ => none

/-- Parse a JSON array of room objects. -/
def parseRoomsList (fuel : Nat) : List Char → Option (List Room × List Char)
  | '[' :: ']' :: rest => some ([], rest)
  | '[' :: cs => parseRoomItems fuel cs
  | _ => none

/-- `JSON.parse` of a persisted room-list blob: the whole input must be one
room-list document.  `none` models `JSON.parse` throwing (and, at the model
boundary, documents that are not room lists). -/
def parseRooms (s : String) : Option (List Room) :=
  match parseRoomsList (s.data.length + 1) s.data with
  | some (rs, []) => some rs
  | _ => none

/-! ### The serializer round-trip (claim C2) -/

/-- `hexDigitVal` inverts `toHexDigitChar` on one digit. -/
theorem hexDigitVal_toHexDigitChar (n : Nat) (h : n < 16) :
    hexDigitVal (toHexDigitChar n) = some n := by
  have htable : ∀ m : Fin 16, hexDigitVal (toHexDigitChar m.val) = some m.val := by decide
  exact htable ⟨n, h⟩

/-- Parsing one escaped character undoes its escaping and continues. -/
theorem parseStringBody_escapeChar (c : Char) (tail : List Char) :
    parseStringBody (escapeChar c ++ tail) = consFst c (parseStringBody tail) := by
  by_cases h1 : c = '"'
  · subst h1; rfl
  by_cases h2 : c = '\\'
  · subst h2; rfl
  by_cases h3 : c = Char.ofNat 8
  · subst h3; rfl
  by_cases h4 : c = Char.ofNat 12
  · subst h4; rfl
  by_cases h5 : c = '\n'
  · subst h5; rfl
  by_cases h6 : c = '\r'
  · subst h6; rfl
  by_cases h7 : c = '\t'
  · subst h7; rfl
  by_cases h8 : c.toNat < 0x20
  · have hesc : escapeChar c
        = ['\\', 'u', '0', '0', toHexDigitChar (c.toNat / 16), toHexDigitChar (c.toNat % 16)] := by
      simp [escapeChar, h1, h2, h3, h4, h5, h6, h7, h8]
    have hd1 : hexDigitVal (toHexDigitChar (c.toNat / 16)) = some (c.toNat / 16) :=
      hexDigitVal_toHexDigitChar _ (by omega)
    have hd2 : hexDigitVal (toHexDigitChar (c.toNat % 16)) = some (c.toNat % 16) :=
      hexDigitVal_toHexDigitChar _ (by omega)
    have hstep : parseStringBody ('\\' :: 'u' :: '0' :: '0'
          :: toHexDigitChar (c.toNat / 16) :: toHexDigitChar (c.toNat % 16) :: tail)
        = parseU '0' '0' (toHexDigitChar (c.toNat / 16)) (toHexDigitChar (c.toNat % 16))
            (parseStringBody tail) := rfl
    rw [hesc, List.cons_append, List.cons_append, List.cons_append, List.cons_append,
        List.cons_append, List.cons_append, List.nil_append, hstep, parseU]
    rw [show hexDigitVal '0' = some 0 from rfl, hd1, hd2]
    have hn : ((0 * 16 + 0) * 16 + c.toNat / 16) * 16 + c.toNat % 16 = c.toNat := by omega
    have hok : (c.toNat < 0xd800 || 0xdfff < c.toNat) = true := by
      simp only [Bool.or_eq_true, decide_eq_true_eq]
      omega
    simp only [hn, hok, if_true, Char.ofNat_toNat]
  · have hesc : escapeChar c = [c] := by
      simp [escapeChar, h1, h2, h3, h4, h5, h6, h7, h8]
    rw [hesc, List.cons_append, List.nil_append, parseStringBody.eq_def]
    simp [h1, h2, h8]

/-- The body parser consumes a bare closing quote. -/
theorem parseStringBody_quote (rest : List Char) :
    parseStringBody ('"' :: rest) = some ([], rest) := by
  rw [parseStringBody.eq_def]
  simp

/-- Parsing an escaped string body stops exactly at the closing quote. -/
theorem parseStringBody_escapeChars (l : List Char) (rest : List Char) :
    parseStringBody (escapeChars l ++ '"' :: rest) = some (l, rest) := by
  induction l with
  | nil =>
    rw [escapeChars, List.nil_append, parseStringBody_quote]
  | cons c cs ih =>
    rw [escapeChars, List.append_assoc, parseStringBody_escapeChar, ih]
    rfl

/-- Parsing a printed string literal recovers the string. -/
theorem parseJString_print (s : String) (tail : List Char) :
    parseJString (printJString s ++ tail) = some (s, tail) := by
  have harg : printJString s ++ tail = '"' :: (escapeChars s.data ++ '"' :: tail) := by
    simp [printJString]
  rw [harg]
  show (match parseStringBody (escapeChars s.data ++ '"' :: tail) with
        | some (b, r) => some (String.mk b, r)
        | none => none) = some (s, tail)
  rw [parseStringBody_escapeChars]

/-- A nonempty array continuation is a comma before the remaining items. -/
theorem printStrSep_cons (s : String) (ss : List String) :
    printStrSep (s :: ss) = ',' :: printStrItems (s :: ss) := rfl

/-- One-step unfolding of `parseStrItems` at successor fuel. -/
theorem parseStrItems_succ (fuel : Nat) (cs : List Char) :
    parseStrItems (fuel + 1) cs
      = (match parseJString cs with
         | none => none
         | some (s, rest) =>
           match rest with
           | ']' :: r2 => some ([s], r2)
           | ',' :: r2 =>
             match parseStrItems fuel r2 with
             | some (ss, r3) => some (s :: ss, r3)
             | none => none
           | _ => none) := by
  rw [parseStrItems.eq_def]

/-- Parsing the printed items of a nonempty string array recovers them. -/
theorem parseStrItems_print : ∀ (s : String) (ss : List String) (rest : List Char) (fuel : Nat),
    (printStrItems (s :: ss)).length < fuel →
    parseStrItems fuel (printStrItems (s :: ss) ++ ']' :: rest) = some (s :: ss, rest)
  | _, _, _, 0, hf => absurd hf (Nat.not_lt_zero _)
  | s, [], rest, fuel + 1, _ => by
    have harg : printStrItems [s] ++ ']' :: rest = printJString s ++ ']' :: rest := by
      simp [printStrItems, printStrSep]
    rw [harg]
    simp only [parseStrItems_succ, parseJString_print]
  | s, x :: xs, rest, fuel + 1, hf => by
    have harg : printStrItems (s :: x :: xs) ++ ']' :: rest
        = printJString s ++ ',' :: (printStrItems (x :: xs) ++ ']' :: rest) := by
      rw [printStrItems, printStrSep_cons]
      simp
    have hlt : (printStrItems (x :: xs)).length < fuel := by
      rw [printStrItems, printStrSep_cons] at hf
      simp only [printJString, List.length_append, List.length_cons] at hf ⊢
      omega
    rw [harg]
    simp only [parseStrItems_succ, parseJString_print, parseStrItems_print x xs rest fuel hlt]

/-- Parsing a printed string array recovers it. -/
theorem parseStrList_print (l : List String) (rest : List Char) (fuel : Nat)
    (hf : (printStrItems l).length < fuel) :
    parseStrList fuel (printStrList l ++ rest) = some (l, rest) := by
  cases l with
  | nil =>
    rw [show printStrList [] ++ rest = '[' :: ']' :: rest from rfl]
    rfl
  | cons s ss =>
    have harg : printStrList (s :: ss) ++ rest
        = '[' :: ('"' :: (escapeChars s.data ++ '"' :: (printStrSep ss ++ ']' :: rest))) := by
      simp [printStrList, printStrItems, printJString]
    have harg2 : '"' :: (escapeChars s.data ++ '"' :: (printStrSep ss ++ ']' :: rest))
        = printStrItems (s :: ss) ++ ']' :: rest := by
      simp [printStrItems, printJString]
    rw [harg]
    rw [show parseStrList fuel
          ('[' :: ('"' :: (escapeChars s.data ++ '"' :: (printStrSep ss ++ ']' :: rest))))
        = parseStrItems fuel
          ('"' :: (escapeChars s.data ++ '"' :: (printStrSep ss ++ ']' :: rest))) from rfl]
    rw [harg2, parseStrItems_print s ss rest fuel hf]

/-- Parsing a printed property value recovers it. -/
theorem parseFieldVal_print (v : FieldVal) (rest : List Char) (fuel : Nat)
    (hf : (printFieldVal v).length < fuel) :
    parseFieldVal fuel (printFieldVal v ++ rest) = some (v, rest) := by
  cases v with
  | str s =>
    have harg : printFieldVal (FieldVal.str s) ++ rest
        = '"' :: (escapeChars s.data ++ '"' :: rest) := by
      simp [printFieldVal, printJString]
    rw [harg]
    rw [show parseFieldVal fuel ('"' :: (escapeChars s.data ++ '"' :: rest))
          = (match parseJString ('"' :: (escapeChars s.data ++ '"' :: rest)) with
             | some (s2, r) => some (FieldVal.str s2, r)
             | none => none) from rfl]
    have hj : parseJString ('"' :: (escapeChars s.data ++ '"' :: rest)) = some (s, rest) := by
      have := parseJString_print s rest
      rw [show printJString s ++ rest = '"' :: (escapeChars s.data ++ '"' :: rest) from by
        simp [printJString]] at this
      exact this
    rw [hj]
  | strList l =>
    have harg : printFieldVal (FieldVal.strList l) ++ rest
        = '[' :: (printStrItems l ++ ']' :: rest) := by
      simp [printFieldVal, printStrList]
    have hlt : (printStrItems l).length < fuel := by
      simp only [printFieldVal, printStrList, List.length_cons, List.length_append,
        List.length_nil] at hf
      omega
    have hl : parseStrList fuel (printStrList l ++ rest) = some (l, rest) :=
      parseStrList_print l rest fuel hlt
    rw [show printStrList l ++ rest = '[' :: (printStrItems l ++ ']' :: rest) from by
      simp [printStrList]] at hl
    cases l with
    | nil =>
      rw [harg]
      rw [show printStrItems ([] : List String) ++ ']' :: rest = ']' :: rest from by
        simp [printStrItems]] at hl ⊢
      rw [show parseFieldVal fuel ('[' :: ']' :: rest)
            = (match parseStrList fuel ('[' :: ']' :: rest) with
               | some (l2, r) => some (FieldVal.strList l2, r)
               | none => none) from rfl]
      rw [show parseStrList fuel ('[' :: ']' :: rest) = some ([], rest) from rfl]
    | cons x xs =>
      have hx : printStrItems (x :: xs) ++ ']' :: rest
          = '"' :: (escapeChars x.data ++ '"' :: (printStrSep xs ++ ']' :: rest)) := by
        simp [printStrItems, printJString]
      rw [harg, hx]
      rw [show parseFieldVal fuel
            ('[' :: ('"' :: (escapeChars x.data ++ '"' :: (printStrSep xs ++ ']' :: rest))))
          = (match parseStrList fuel
               ('[' :: ('"' :: (escapeChars x.data ++ '"' :: (printStrSep xs ++ ']' :: rest)))) with
             | some (l2, r) => some (FieldVal.strList l2, r)
             | none => none) from rfl]
      rw [hx] at hl
      rw [hl]

/-- A nonempty property continuation is a comma before the remaining items. -/
theorem printFieldSep_cons (kv : String × FieldVal) (ps : List (String × FieldVal)) :
    printFieldSep (kv :: ps) = ',' :: printFieldItems (kv :: ps) := rfl

/-- One-step unfolding of `parseFieldItems` at successor fuel. -/
theorem parseFieldItems_succ (fuel : Nat) (cs : List Char) :
    parseFieldItems (fuel + 1) cs
      = (match parseJString cs with
         | none => none
         | some (k, r1) =>
           match r1 with
           | ':' :: r2 =>
             match parseFieldVal fuel r2 with
             | none => none
             | some (v, r3) =>
               match r3 with
               | '\x7d' :: r4 => some ([(k, v)], r4)
               | ',' :: r4 =>
                 match parseFieldItems fuel r4 with
                 | some (fs, r5) => some ((k, v) :: fs, r5)
                 | none => none
               | _ => none
           | _ => none) := by
  rw [parseFieldItems.eq_def]

/-- Parsing the printed properties of a nonempty object recovers them. -/
theorem parseFieldItems_print :
    ∀ (k : String) (v : FieldVal) (ps : List (String × FieldVal)) (rest : List Char) (fuel : Nat),
    (printFieldItems ((k, v) :: ps)).length < fuel →
    parseFieldItems fuel (printFieldItems ((k, v) :: ps) ++ '\x7d' :: rest)
      = some ((k, v) :: ps, rest)
  | _, _, _, _, 0, hf => absurd hf (Nat.not_lt_zero _)
  | k, v, [], rest, fuel + 1, hf => by
    have harg : printFieldItems [(k, v)] ++ '\x7d' :: rest
        = printJString k ++ ':' :: (printFieldVal v ++ '\x7d' :: rest) := by
      simp [printFieldItems, printField, printFieldSep]
    have hlt1 : (printFieldVal v).length < fuel := by
      simp only [printFieldItems, printField, printFieldSep, printJString, List.length_append,
        List.length_cons, List.length_nil, List.append_nil] at hf
      omega
    rw [harg]
    simp only [parseFieldItems_succ, parseJString_print,
      parseFieldVal_print v ('\x7d' :: rest) fuel hlt1]
  | k, v, (k2, v2) :: ps, rest, fuel + 1, hf => by
    have harg : printFieldItems ((k, v) :: (k2, v2) :: ps) ++ '\x7d' :: rest
        = printJString k ++ ':' :: (printFieldVal v
            ++ ',' :: (printFieldItems ((k2, v2) :: ps) ++ '\x7d' :: rest)) := by
      rw [printFieldItems, printFieldSep_cons]
      simp [printField]
    rw [printFieldItems, printFieldSep_cons] at hf
    have hlt1 : (printFieldVal v).length < fuel := by
      simp only [printField, printJString, List.length_append, List.length_cons] at hf
      omega
    have hlt2 : (printFieldItems ((k2, v2) :: ps)).length < fuel := by
      simp only [printField, printJString, List.length_append, List.length_cons] at hf
      omega
    rw [harg]
    simp only [parseFieldItems_succ, parseJString_print,
      parseFieldVal_print v (',' :: (printFieldItems ((k2, v2) :: ps) ++ '\x7d' :: rest)) fuel hlt1,
      parseFieldItems_print k2 v2 ps rest fuel hlt2]

/-- Reading back the printed property list of a room rebuilds the room. -/
theorem roomOfFields_roomFields (r : Room) : roomOfFields (roomFields r) = some r := by
  obtain ⟨id, name, icon, bl, bc, bm, bs, bw⟩ := r
  cases icon <;> cases bl <;> cases bc <;> cases bm <;> cases bs <;> cases bw <;> rfl

/-- One-step unfolding of `parseRoomItems` at successor fuel. -/
theorem parseRoomItems_succ (fuel : Nat) (cs : List Char) :
    parseRoomItems (fuel + 1) cs
      = (match parseRoom fuel cs with
         | none => none
         | some (r, rest) =>
           match rest with
           | ']' :: r2 => some ([r], r2)
           | ',' :: r2 =>
             match parseRoomItems fuel r2 with
             | some (rs, r3) => some (r :: rs, r3)
             | none => none
           | _ => none) := by
  rw [parseRoomItems.eq_def]

/-- The printed property list of a room starts with the `id` key. -/
theorem printFieldItems_roomFields_cons (r : Room) (tail : List Char) :
    printFieldItems (roomFields r) ++ tail
      = '"' :: (escapeChars "id".data
          ++ '"' :: (':' :: (printFieldVal (FieldVal.str r.id)
              ++ (printFieldSep (roomFields r).tail ++ tail)))) := by
  rw [roomFields]
  simp [printFieldItems, printField, printJString, roomFields]

/-- A nonempty property list parses back to itself. -/
theorem parseFieldItems_print_ne (ps : List (String × FieldVal)) (hne : ps ≠ [])
    (rest : List Char) (fuel : Nat) (hf : (printFieldItems ps).length < fuel) :
    parseFieldItems fuel (printFieldItems ps ++ '\x7d' :: rest) = some (ps, rest) := by
  match ps, hne with
  | (k, v) :: tail, _ => exact parseFieldItems_print k v tail rest fuel hf

/-- An object whose first property key opens with a quote parses through
`parseFieldItems`. -/
theorem parseObjFields_cons_quote (fuel : Nat) (z : List Char) :
    parseObjFields fuel ('\x7b' :: '"' :: z) = parseFieldItems fuel ('"' :: z) := rfl

/-- Parsing a printed room object recovers the room. -/
theorem parseRoom_print (r : Room) (rest : List Char) (fuel : Nat)
    (hf : (printFieldItems (roomFields r)).length < fuel) :
    parseRoom fuel (printRoom r ++ rest) = some (r, rest) := by
  have hne : roomFields r ≠ [] := by rw [roomFields]; simp
  have harg : printRoom r ++ rest
      = '\x7b' :: (printFieldItems (roomFields r) ++ '\x7d' :: rest) := by
    simp [printRoom]
  have hfields : parseFieldItems fuel (printFieldItems (roomFields r) ++ '\x7d' :: rest)
      = some (roomFields r, rest) := parseFieldItems_print_ne _ hne rest fuel hf
  have hobj : parseObjFields fuel
      ('\x7b' :: (printFieldItems (roomFields r) ++ '\x7d' :: rest))
      = some (roomFields r, rest) := by
    rw [printFieldItems_roomFields_cons] at hfields ⊢
    rw [parseObjFields_cons_quote]
    exact hfields
  rw [harg]
  simp only [parseRoom, hobj, roomOfFields_roomFields]

/-- A nonempty room-array continuation is a comma before the remaining items. -/
theorem printRoomSep_cons (r : Room) (rs : List Room) :
    printRoomSep (r :: rs) = ',' :: printRoomItems (r :: rs) := rfl

/-- Parsing the printed items of a nonempty room array recovers them. -/
theorem parseRoomItems_print : ∀ (r : Room) (rs : List Room) (rest : List Char) (fuel : Nat),
    (printRoomItems (r :: rs)).length < fuel →
    parseRoomItems fuel (printRoomItems (r :: rs) ++ ']' :: rest) = some (r :: rs, rest)
  | _, _, _, 0, hf => absurd hf (Nat.not_lt_zero _)
  | r, [], rest, fuel + 1, hf => by
    have harg : printRoomItems [r] ++ ']' :: rest = printRoom r ++ ']' :: rest := by
      simp [printRoomItems, printRoomSep]
    have hlt : (printFieldItems (roomFields r)).length < fuel := by
      simp only [printRoomItems, printRoomSep, printRoom, List.length_append, List.length_cons,
        List.length_nil, List.append_nil] at hf
      omega
    rw [harg]
    simp only [parseRoomItems_succ, parseRoom_print r (']' :: rest) fuel hlt]
  | r, r2 :: rs, rest, fuel + 1, hf => by
    have harg : printRoomItems (r :: r2 :: rs) ++ ']' :: rest
        = printRoom r ++ ',' :: (printRoomItems (r2 :: rs) ++ ']' :: rest) := by
      rw [printRoomItems, printRoomSep_cons]
      simp
    rw [printRoomItems, printRoomSep_cons] at hf
    have hlt1 : (printFieldItems (roomFields r)).length < fuel := by
      simp only [printRoom, List.length_append, List.length_cons] at hf
      omega
    have hlt2 : (printRoomItems (r2 :: rs)).length < fuel := by
      simp only [printRoom, List.length_append, List.length_cons] at hf
      omega
    rw [harg]
    simp only [parseRoomItems_succ,
      parseRoom_print r (',' :: (printRoomItems (r2 :: rs) ++ ']' :: rest)) fuel hlt1,
      parseRoomItems_print r2 rs rest fuel hlt2]

/-- A room array whose first object opens with a brace parses through
`parseRoomItems`. -/
theorem parseRoomsList_cons_brace (fuel : Nat) (z : List Char) :
    parseRoomsList fuel ('[' :: '\x7b' :: z) = parseRoomItems fuel ('\x7b' :: z) := rfl

/-- The printed items of a nonempty room array start with a brace. -/
theorem printRoomItems_cons_brace (r : Room) (rs : List Room) (tail : List Char) :
    printRoomItems (r :: rs) ++ tail
      = '\x7b' :: (printFieldItems (roomFields r) ++ '\x7d' :: (printRoomSep rs ++ tail)) := by
  simp [printRoomItems, printRoom]


/-- Parsing a printed room array recovers it. -/
theorem parseRoomsList_print (rooms : List Room) (rest : List Char) (fuel : Nat)
    (hf : (printRoomItems rooms).length < fuel) :
    parseRoomsList fuel (printRooms rooms ++ rest) = some (rooms, rest) := by
  cases rooms with
  | nil =>
    rw [show printRooms [] ++ rest = '[' :: ']' :: rest from rfl]
    rfl
  | cons r rs =>
    rw [show printRooms (r :: rs) ++ rest = '[' :: (printRoomItems (r :: rs) ++ ']' :: rest)
      from by simp [printRooms]]
    rw [printRoomItems_cons_brace, parseRoomsList_cons_brace, ← printRoomItems_cons_brace]
    exact parseRoomItems_print r rs rest fuel hf

/-- `JSON.parse` inverts `JSON.stringify` on every room list (the heart of
the save/load round trip). -/
theorem parseRooms_stringifyRooms (rooms : List Room) :
    parseRooms (stringifyRooms rooms) = some rooms := by
  have hdata : (stringifyRooms rooms).data = printRooms rooms := rfl
  have hb : (printRoomItems rooms).length < (printRooms rooms).length + 1 := by
    simp only [printRooms, List.length_cons, List.length_append, List.length_nil]
    omega
  have hlist : parseRoomsList ((printRooms rooms).length + 1) (printRooms rooms)
      = some (rooms, []) := by
    have h := parseRoomsList_print rooms [] ((printRooms rooms).length + 1) hb
    rw [List.append_nil] at h
    exact h
  rw [parseRooms, hdata]
  simp only [hlist]

/-! ### Persistence (claims C2, C3, C5) -/

/-- `saveRoomConfig()` of part_000 lines 95-101:
`localStorage.setItem(this._config.storage_key, JSON.stringify(this._rooms))`
inside `try`/`catch`.  `writeOk = false` models `setItem` throwing (e.g.
quota exceeded): the error is logged and swallowed, and neither the store
nor the in-memory room list changes.  The first component is `this._rooms`
after the call. -/
def saveRoomConfig (rooms : List Room) (storageKey : String)
    (store : String → Option String) (writeOk : Bool) :
    List Room × (String → Option String) :=
  (rooms,
    if writeOk then fun k => if k = storageKey then some (stringifyRooms rooms) else store k
    else store)

/-- `loadRoomConfig()` of part_000 lines 80-93: read the blob; a present,
nonempty (truthy) blob is `JSON.parse`d into `this._rooms`; a missing or
empty blob selects the defaults and immediately saves them; a parse error
is caught, logged, and replaced by the defaults **without** saving.  The
result is `(this._rooms, store after the call)`. -/
def loadRoomConfig (store : String → Option String) (storageKey : String) (writeOk : Bool) :
    List Room × (String → Option String) :=
  match store storageKey with
  | some saved =>
    if saved = "" then
      saveRoomConfig getDefaultRooms storageKey store writeOk
    else
      match parseRooms saved with
      | some rooms => (rooms, store)
      | none => (getDefaultRooms, store)
  | none =>
    saveRoomConfig getDefaultRooms storageKey store writeOk

/-- A serialized room list is never the empty (falsy) string. -/
theorem stringifyRooms_ne_empty (rooms : List Room) : stringifyRooms rooms ≠ "" := by
  intro h
  have hd := congrArg String.data h
  simp only [stringifyRooms, printRooms] at hd
  cases hd

/-- Claim C2: a successful `save()` followed by a fresh `load()` from the
same storage key reproduces the saved room list, whatever the load's own
default-write outcome is. -/
theorem save_load_roundtrip (rooms : List Room) (storageKey : String)
    (store : String → Option String) (writeOk2 : Bool) :
    (loadRoomConfig (saveRoomConfig rooms storageKey store true).2 storageKey writeOk2).1
      = rooms := by
  have hget : (saveRoomConfig rooms storageKey store true).2 storageKey
      = some (stringifyRooms rooms) := by
    simp [saveRoomConfig]
  simp [loadRoomConfig, hget, stringifyRooms_ne_empty rooms, parseRooms_stringifyRooms]

/-- Claim C5: `save()` is total (the `catch` swallows write errors); a
failed write changes nothing — the in-memory room list and the store are
exactly as before — and even a successful write leaves the in-memory room
list untouched, which therefore remains authoritative for the session. -/
theorem saveRoomConfig_spec (rooms : List Room) (storageKey : String)
    (store : String → Option String) :
    (saveRoomConfig rooms storageKey store false).1 = rooms ∧
    (saveRoomConfig rooms storageKey store false).2 = store ∧
    (saveRoomConfig rooms storageKey store true).1 = rooms ∧
    (saveRoomConfig rooms storageKey store true).2 storageKey
      = some (stringifyRooms rooms) := by
  refine ⟨rfl, rfl, rfl, by simp [saveRoomConfig]⟩

/-- A store holding a malformed (unparseable) blob under the key `"cfg"`. -/
def badStore : String → Option String :=
  fun k => if k = "cfg" then some "\x7b" else none

/-- A store with no blob at all. -/
def emptyStore : String → Option String := fun _ => none

/-- Counterexample to C3 as stated: on a malformed blob (`"\x7b"`, on which
`JSON.parse` throws), `load()` sets the defaults in memory but does **not**
persist them — the malformed blob is still in the store afterwards. -/
theorem loadRoomConfig_counterexample :
    (loadRoomConfig badStore "cfg" true).1 = getDefaultRooms ∧
    (loadRoomConfig badStore "cfg" true).2 "cfg" = some "\x7b" ∧
    some "\x7b" ≠ some (stringifyRooms getDefaultRooms) := by
  refine ⟨by decide, by decide, by decide⟩

/-- Claim C3 (amended): `load()` never fails outward; on a missing blob the
defaults are installed in memory and immediately persisted (when the write
succeeds); on a malformed blob the defaults are installed in memory but the
store is left unchanged. -/
theorem loadRoomConfig_spec (store : String → Option String) (storageKey : String) :
    (store storageKey = none →
      (loadRoomConfig store storageKey true).1 = getDefaultRooms ∧
      (loadRoomConfig store storageKey true).2 storageKey
        = some (stringifyRooms getDefaultRooms)) ∧
    (∀ s, store storageKey = some s → s ≠ "" → parseRooms s = none →
      (loadRoomConfig store storageKey true).1 = getDefaultRooms ∧
      (loadRoomConfig store storageKey true).2 = store) := by
  constructor
  · intro h
    simp [loadRoomConfig, h, saveRoomConfig]
  · intro s hs hne hp
    simp [loadRoomConfig, hs, hne, hp]

/-- Witness for C3 (amended): a missing blob is replaced by persisted
defaults; the malformed blob `"\x7b"` yields in-memory defaults and an
untouched store. -/
theorem loadRoomConfig_spec_witness :
    ((loadRoomConfig emptyStore "cfg" true).1 = getDefaultRooms ∧
     (loadRoomConfig emptyStore "cfg" true).2 "cfg"
       = some (stringifyRooms getDefaultRooms)) ∧
    ((loadRoomConfig badStore "cfg" true).1 = getDefaultRooms ∧
     (loadRoomConfig badStore "cfg" true).2 = badStore) :=
  ⟨(loadRoomConfig_spec emptyStore "cfg").1 rfl,
   (loadRoomConfig_spec badStore "cfg").2 "\x7b" (by decide) (by decide) (by decide)⟩

/-! ### Device commands (claims C7 and C8) -/

/-- The attributes of a live entity state that the embedded logic reads.
Home Assistant attributes are an open mapping; temperatures are modelled as
exact rationals. -/
structure Attributes where
  temperature : Option ℚ
  current_temperature : Option ℚ
deriving DecidableEq, Repr

/-- One entry of `hass.states`: `{ state, attributes }`. -/
structure EntityState where
  state : String
  attributes : Attributes
deriving DecidableEq, Repr

/-- The live state source: `getState(entityId)` is
`this._hass?.states?.[entityId]` (`none` both for a missing entity and for
a missing `hass`). -/
def HassStates : Type := String → Option EntityState

/-- Payload of a `callService` invocation; absent JavaScript object keys
are `none`. -/
structure ServiceData where
  entity_id : String
  hvac_mode : Option String
  temperature : Option ℚ
deriving DecidableEq, Repr

/-- One `this._hass.callService(domain, service, data)` invocation. -/
structure ServiceCall where
  domain : String
  service : String
  data : ServiceData
deriving DecidableEq, Repr

/-- `entityId.split('.')[0]`: the text before the first dot. -/
def entityDomain (entityId : String) : String :=
  ⟨entityId.data.takeWhile (fun c => c ≠ '.')⟩

/-- `toggleEntity(entityId)` of part_000 lines 150-165: no resolvable state
means no dispatch; a `climate` entity gets `set_hvac_mode` with
`heat_cool` when its state is `"off"` and `off` otherwise; every other
domain gets the generic `homeassistant.toggle`.  The result is the
dispatched call, `none` for the guarded no-op. -/
def toggleEntity (states : HassStates) (entityId : String) : Option ServiceCall :=
  match states entityId with
  | none => none
  | some st =>
    if entityDomain entityId = "climate" then
      let newMode := if st.state = "off" then "heat_cool" else "off"
      some ⟨"climate", "set_hvac_mode", ⟨entityId, some newMode, none⟩⟩
    else
      some ⟨"homeassistant", "toggle", ⟨entityId, none, none⟩⟩

/-- `setTemperature(entityId, temperature)` of part_000 lines 167-172. -/
def setTemperature (entityId : String) (temperature : ℚ) : ServiceCall :=
  ⟨"climate", "set_temperature", ⟨entityId, none, some temperature⟩⟩

/-- The displayed target temperature of `renderClimateDevice` (part_000
line 532): `entity.attributes.temperature || 20` — both an absent and a
zero (falsy) reported target fall back to `20`. -/
def reportedTarget (a : Attributes) : ℚ :=
  match a.temperature with
  | none => 20
  | some t => if t = 0 then 20 else t

/-- The absolute value carried by a temperature button of
`renderClimateDevice` (part_000 lines 549-551): the currently reported
target plus or minus `0.5`, recomputed at every render. -/
def tempButtonValue (st : EntityState) (up : Bool) : ℚ :=
  if up then reportedTarget st.attributes + 1/2 else reportedTarget st.attributes - 1/2

/-- A temperature button press (part_000 lines 726-731): dispatch
`setTemperature` with the button's rendered absolute value. -/
def pressTempButton (st : EntityState) (entityId : String) (up : Bool) : ServiceCall :=
  setTemperature entityId (tempButtonValue st up)

/-- Claim C7: toggling a climate entity reported `"off"` issues
`set_hvac_mode heat_cool`; in any other reported state it issues mode
`off`; a non-climate entity gets the generic `homeassistant.toggle`; an
unresolvable entity dispatches nothing. -/
theorem toggleEntity_spec (states : HassStates) (entityId : String) :
    (states entityId = none → toggleEntity states entityId = none) ∧
    (∀ st, states entityId = some st → entityDomain entityId = "climate" → st.state = "off" →
      toggleEntity states entityId
        = some ⟨"climate", "set_hvac_mode", ⟨entityId, some "heat_cool", none⟩⟩) ∧
    (∀ st, states entityId = some st → entityDomain entityId = "climate" → st.state ≠ "off" →
      toggleEntity states entityId
        = some ⟨"climate", "set_hvac_mode", ⟨entityId, some "off", none⟩⟩) ∧
    (∀ st, states entityId = some st → entityDomain entityId ≠ "climate" →
      toggleEntity states entityId
        = some ⟨"homeassistant", "toggle", ⟨entityId, none, none⟩⟩) := by
  refine ⟨fun h => by simp [toggleEntity, h], fun st hst hdom hoff => ?_,
    fun st hst hdom hoff => ?_, fun st hst hdom => ?_⟩
  · simp [toggleEntity, hst, hdom, hoff]
  · simp [toggleEntity, hst, hdom, hoff]
  · simp [toggleEntity, hst, hdom]

/-- A live state source for the C7 witness: one climate entity reported
`"off"`, one reported `"heat"`, one light reported `"on"`. -/
def witnessStates : HassStates := fun entityId =>
  if entityId = "climate.living" then some ⟨"off", ⟨none, none⟩⟩
  else if entityId = "climate.bedroom" then some ⟨"heat", ⟨none, none⟩⟩
  else if entityId = "light.kitchen" then some ⟨"on", ⟨none, none⟩⟩
  else none

/-- Witness for C7: all four behaviours at concrete entities. -/
theorem toggleEntity_spec_witness :
    toggleEntity witnessStates "sensor.gone" = none ∧
    toggleEntity witnessStates "climate.living"
      = some ⟨"climate", "set_hvac_mode", ⟨"climate.living", some "heat_cool", none⟩⟩ ∧
    toggleEntity witnessStates "climate.bedroom"
      = some ⟨"climate", "set_hvac_mode", ⟨"climate.bedroom", some "off", none⟩⟩ ∧
    toggleEntity witnessStates "light.kitchen"
      = some ⟨"homeassistant", "toggle", ⟨"light.kitchen", none, none⟩⟩ :=
  ⟨(toggleEntity_spec witnessStates "sensor.gone").1 (by decide),
   (toggleEntity_spec witnessStates "climate.living").2.1 ⟨"off", ⟨none, none⟩⟩
     (by decide) (by decide) (by decide),
   (toggleEntity_spec witnessStates "climate.bedroom").2.2.1 ⟨"heat", ⟨none, none⟩⟩
     (by decide) (by decide) (by decide),
   (toggleEntity_spec witnessStates "light.kitchen").2.2.2 ⟨"on", ⟨none, none⟩⟩
     (by decide) (by decide)⟩

/-- Claim C8: each temperature button press issues a `set_temperature`
command whose absolute value is the currently reported target (20 when
unset) plus or minus exactly `0.5`; the value depends only on the live
reported target, never on earlier presses; with a reported target of `21`
the increment button issues `21.5`. -/
theorem pressTempButton_spec (st : EntityState) (entityId : String) :
    pressTempButton st entityId true
      = setTemperature entityId (reportedTarget st.attributes + 1/2) ∧
    pressTempButton st entityId false
      = setTemperature entityId (reportedTarget st.attributes - 1/2) ∧
    (st.attributes.temperature = none → reportedTarget st.attributes = 20) ∧
    (∀ st2 : EntityState, st2.attributes.temperature = st.attributes.temperature →
      ∀ up, pressTempButton st2 entityId up = pressTempButton st entityId up) ∧
    (st.attributes.temperature = some 21 →
      pressTempButton st entityId true = setTemperature entityId (43/2)) := by
  refine ⟨rfl, rfl, fun h => by simp [reportedTarget, h], fun st2 h up => ?_, fun h => ?_⟩
  · simp [pressTempButton, tempButtonValue, reportedTarget, h]
  · simp [pressTempButton, tempButtonValue, reportedTarget, h]
    norm_num

/-- Witness for C8: a climate entity reporting target `21`; the increment
press issues the absolute value `21.5`, twice in a row, and an unset target
reads as `20`. -/
theorem pressTempButton_spec_witness :
    (pressTempButton ⟨"heat", ⟨some 21, some (39/2)⟩⟩ "climate.living" true
      = setTemperature "climate.living" (43/2)) ∧
    (pressTempButton ⟨"heat", ⟨some 21, none⟩⟩ "climate.living" true
      = pressTempButton ⟨"heat", ⟨some 21, some (39/2)⟩⟩ "climate.living" true) ∧
    reportedTarget ⟨none, none⟩ = 20 :=
  ⟨(pressTempButton_spec ⟨"heat", ⟨some 21, some (39/2)⟩⟩ "climate.living").2.2.2.2 rfl,
   (pressTempButton_spec ⟨"heat", ⟨some 21, some (39/2)⟩⟩ "climate.living").2.2.2.1
     ⟨"heat", ⟨some 21, none⟩⟩ rfl true,
   (pressTempButton_spec ⟨"idle", ⟨none, none⟩⟩ "climate.x").2.2.1 rfl⟩
